import Mathlib

/-!
Verification of the Tdash configuration-analysis and drift-detection core.

The TypeScript source is shallowly embedded: pure string processing becomes
functions over `List Char`, subprocess outcomes become explicit environment
records, and the in-memory drift cache becomes an association list with
JavaScript `Map` get/set/delete semantics.  JavaScript regular-expression
matching is embedded by a small leftmost-match token matcher; every pattern
used by the source consists of literals and greedy character-class runs each
followed by a literal starting outside the class, so maximal-munch matching
without backtracking coincides with the JS engine's behaviour on them.
-/

namespace Tdash

/-! ## Character and string utilities -/

/-- JavaScript `\s` whitespace class restricted to the characters that can
occur in the inputs handled here. -/
def jsWs (c : Char) : Bool :=
  c == ' ' || c == '\t' || c == '\n' || c == '\r' || c == '\x0b' || c == '\x0c'

/-- JavaScript `\w` word-character class. -/
def wordChar (c : Char) : Bool :=
  c.isAlpha || c.isDigit || c == '_'

/-- `String.prototype.split` with a single-character separator. -/
def splitOnChar (sep : Char) : List Char → List (List Char)
  | [] => [[]]
  | c :: rest =>
    let r := splitOnChar sep rest
    if c == sep then [] :: r
    else
      match r with
      | h :: t => (c :: h) :: t
      | [] => [[c]]

/-- `String.prototype.includes`: substring containment. -/
def containsSub (needle : List Char) : List Char → Bool
  | [] => needle.isPrefixOf []
  | c :: rest => needle.isPrefixOf (c :: rest) || containsSub needle rest

/-- `String.prototype.trim`. -/
def jsTrim (cs : List Char) : List Char :=
  ((cs.dropWhile fun c => jsWs c).reverse.dropWhile fun c => jsWs c).reverse

/-- `String.prototype.startsWith` for a single-character word. -/
def startsWithChar (c : Char) : List Char → Bool
  | [] => false
  | d :: _ => d == c

/-- `String.prototype.replace` with a single-character search string:
removes the first occurrence only. -/
def removeFirstChar (target : Char) : List Char → List Char
  | [] => []
  | c :: cs => if c == target then cs else c :: removeFirstChar target cs

/-- `parseInt` on a capture of `\d+`. -/
def digitsToNat (cs : List Char) : Nat :=
  cs.foldl (fun acc c => acc * 10 + (c.toNat - '0'.toNat)) 0

/-! ## Leftmost-match token patterns

A `Tok` sequence stands for a JS regular expression built from literals
(`lit`), optional literals (`optLit`), captured greedy one-or-more character
classes (`cap`), and uncaptured greedy zero-or-more / one-or-more classes
(`skip0` / `skip1`). -/

inductive Tok where
  | lit (s : List Char)
  | optLit (s : List Char)
  | cap (p : Char → Bool)
  | skip0 (p : Char → Bool)
  | skip1 (p : Char → Bool)

/-- Match a token sequence at the start of the input, returning the list of
captures and the remaining input after the match. -/
def matchToksAt : List Tok → List Char → Option (List (List Char) × List Char)
  | [], cs => some ([], cs)
  | .lit s :: ts, cs =>
    if s.isPrefixOf cs then matchToksAt ts (cs.drop s.length) else none
  | .optLit s :: ts, cs =>
    if s.isPrefixOf cs then matchToksAt ts (cs.drop s.length) else matchToksAt ts cs
  | .cap p :: ts, cs =>
    let run := cs.takeWhile p
    if run.isEmpty then none
    else
      match matchToksAt ts (cs.dropWhile p) with
      | some (caps, rest) => some (run :: caps, rest)
      | none => none
  | .skip0 p :: ts, cs => matchToksAt ts (cs.dropWhile p)
  | .skip1 p :: ts, cs =>
    if (cs.takeWhile p).isEmpty then none else matchToksAt ts (cs.dropWhile p)

/-- `RegExp.prototype.exec` without the global flag: leftmost match. -/
def searchToks (ts : List Tok) : List Char → Option (List (List Char) × List Char)
  | [] => matchToksAt ts []
  | c :: cs =>
    match matchToksAt ts (c :: cs) with
    | some r => some r
    | none => searchToks ts cs

/-- All successive leftmost matches, as produced by a global-flag `exec`
loop.  The fuel argument is initialised to one more than the input length;
every pattern used here consumes at least one character per match, so the
fuel never runs out on reachable calls. -/
def searchAllAux (ts : List Tok) : Nat → List Char → List (List (List Char))
  | 0, _ => []
  | fuel + 1, cs =>
    match searchToks ts cs with
    | some (caps, rest) => caps :: searchAllAux ts fuel rest
    | none => []

/-- `String.prototype.match` with the global flag (capture lists of each match). -/
def searchAll (ts : List Tok) (cs : List Char) : List (List (List Char)) :=
  searchAllAux ts (cs.length + 1) cs

/-! ## Drift detector (`src/drift/state-drift-detector.ts`) -/

/-- The ANSI colour escape stripper `line.replace(/\x1b\[[0-9;]*m/g, '')`.
Fuel-driven scan; initialised with one more than the input length, which the
recursion never exhausts. -/
def stripAnsiAux : Nat → List Char → List Char
  | 0, cs => cs
  | fuel + 1, cs =>
    match cs with
    | [] => []
    | '\x1b' :: rest =>
      match rest with
      | '[' :: rest2 =>
        match rest2.dropWhile (fun c => c.isDigit || c == ';') with
        | 'm' :: rest3 => stripAnsiAux fuel rest3
        | _ => '\x1b' :: stripAnsiAux fuel rest
      | _ => '\x1b' :: stripAnsiAux fuel rest
    | c :: rest => c :: stripAnsiAux fuel rest

def stripAnsi (cs : List Char) : List Char :=
  stripAnsiAux (cs.length + 1) cs

/-- Retention window of the drift cache: five minutes in milliseconds. -/
def retentionWindow : Nat := 5 * 60 * 1000

structure Changes where
  add : Nat
  change : Nat
  destroy : Nat
deriving DecidableEq

structure DriftResult where
  workspace : String
  hasDrift : Bool
  changes : Changes
  details : String
  lastChecked : Nat
  error : Option String
deriving DecidableEq

/-- `/Plan: (\d+) to add, (\d+) to change, (\d+) to destroy\.?/` -/
def planPattern1 : List Tok :=
  [.lit "Plan: ".data, .cap Char.isDigit, .lit " to add, ".data,
   .cap Char.isDigit, .lit " to change, ".data,
   .cap Char.isDigit, .lit " to destroy".data, .optLit ".".data]

/-- `/Plan: (\d+) to add, (\d+) to change, (\d+) to destroy, (\d+) to replace\.?/` -/
def planPattern2 : List Tok :=
  [.lit "Plan: ".data, .cap Char.isDigit, .lit " to add, ".data,
   .cap Char.isDigit, .lit " to change, ".data,
   .cap Char.isDigit, .lit " to destroy, ".data,
   .cap Char.isDigit, .lit " to replace".data, .optLit ".".data]

/-- `/Plan: (\d+) to add, (\d+) to change, (\d+) to destroy!/` -/
def planPattern3 : List Tok :=
  [.lit "Plan: ".data, .cap Char.isDigit, .lit " to add, ".data,
   .cap Char.isDigit, .lit " to change, ".data,
   .cap Char.isDigit, .lit " to destroy!".data]

def planPatterns : List (List Tok) := [planPattern1, planPattern2, planPattern3]

/-- `parseInt(match[i + 1]) || 0` on the capture list of a plan pattern. -/
def capNat (caps : List (List Char)) (i : Nat) : Nat :=
  digitsToNat (caps.getD i [])

/-- The inner `for` loop over `patterns`: first pattern that matches the
cleaned line wins, yielding the add/change/destroy captures. -/
def tryPlanPatterns : List (List Tok) → List Char → Option (Nat × Nat × Nat)
  | [], _ => none
  | p :: ps, clean =>
    match searchToks p clean with
    | some (caps, _) => some (capNat caps 0, capNat caps 1, capNat caps 2)
    | none => tryPlanPatterns ps clean

/-- Running add/change/destroy/hasDrift state of `parsePlanOutput`'s line loop. -/
structure PlanScan where
  add : Nat
  change : Nat
  destroy : Nat
  hasDrift : Bool
deriving DecidableEq

/-- One iteration of `for (const line of lines)` in `parsePlanOutput`. -/
def planLineStep (st : PlanScan) (line : List Char) : PlanScan :=
  if containsSub "Plan:".data line then
    match tryPlanPatterns planPatterns (stripAnsi line) with
    | some (a, b, c) => ⟨a, b, c, decide (a > 0) || decide (b > 0) || decide (c > 0)⟩
    | none => st
  else st

/-- The trailing defensive check: when all counts are zero, a line containing
a no-changes phrase forces `hasDrift := false`. -/
def noChangesScan (lines : List (List Char)) (st : PlanScan) : PlanScan :=
  if st.add == 0 && st.change == 0 && st.destroy == 0 then
    if lines.any fun l =>
        containsSub "No changes".data l || containsSub "No differences".data l then
      { st with hasDrift := false }
    else st
  else st

def generateDriftSummary (add change destroy : Nat) : String :=
  let parts : List String :=
    (if add > 0 then [toString add ++ " to add"] else []) ++
    (if change > 0 then [toString change ++ " to change"] else []) ++
    (if destroy > 0 then [toString destroy ++ " to destroy"] else [])
  if parts.isEmpty then "No changes. Infrastructure is up-to-date."
  else "Plan: " ++ String.intercalate ", " parts

/-- `StateDriftDetector.parsePlanOutput`, with the construction timestamp of
`new Date()` passed in explicitly as `now`. -/
def parsePlanOutput (output workspace : String) (now : Nat) : DriftResult :=
  let lines := splitOnChar '\n' output.data
  let st := noChangesScan lines (lines.foldl planLineStep ⟨0, 0, 0, false⟩)
  { workspace := workspace
    hasDrift := st.hasDrift
    changes := ⟨st.add, st.change, st.destroy⟩
    details := generateDriftSummary st.add st.change st.destroy
    lastChecked := now
    error := none }

/-! The drift cache is a JS `Map<string, DriftResult>`; only its
`get`/`set`/`delete` observations matter here, so it is an association list
whose `set` replaces any existing binding. -/

abbrev DriftCache := List (String × DriftResult)

def cacheGet : DriftCache → String → Option DriftResult
  | [], _ => none
  | (k, v) :: rest, key => if k == key then some v else cacheGet rest key

def cacheDelete : DriftCache → String → DriftCache
  | [], _ => []
  | e :: rest, key =>
    if e.1 == key then cacheDelete rest key else e :: cacheDelete rest key

def cacheSet (cache : DriftCache) (key : String) (v : DriftResult) : DriftCache :=
  (key, v) :: cacheDelete cache key

/-- Rejection value of the promisified `exec` used for `workspace select`:
the thrown error's `code`, `stderr` and `message` fields. -/
structure ExecFailure where
  code : Option String
  stderr : String
  message : String

/-- Return value of `spawnSync` for the plan run: `status` is `null` on
timeout or spawn failure, `error` holds the error's message when set. -/
structure SpawnSyncResult where
  status : Option Int
  stdout : String
  stderr : String
  error : Option String

/-- The subprocess outcomes a single `checkDrift` invocation can observe.
`workspace select` is run through promisified `exec`, which rejects on any
failure (non-zero exit, timeout, spawn error), hence an `Except`. -/
structure DriftEnv where
  selectResult : Except ExecFailure Unit
  planResult : SpawnSyncResult

/-- Error-message construction of the `catch` block of `checkDrift`. -/
def catchErrorMessage (e : ExecFailure) : String :=
  if e.code == some "ETIMEDOUT" then
    "Drift check timed out - Terraform plan took too long"
  else if e.stderr != "" then "Drift check failed: " ++ e.stderr
  else if e.message != "" then "Drift check failed: " ++ e.message
  else "Failed to check drift"

/-- Error-message construction of the non-plan exit-code branch. -/
def planErrorMessage (p : SpawnSyncResult) : String :=
  match p.error with
  | some m => "Drift check failed: " ++ m
  | none =>
    if p.stderr != "" then "Drift check failed: " ++ p.stderr
    else "Failed to check drift"

/-- Result of one `checkDrift` call: the returned `DriftResult`, the cache
afterwards, and whether the select and plan subprocesses were spawned. -/
structure CheckOutcome where
  result : DriftResult
  cache : DriftCache
  selectInvoked : Bool
  planInvoked : Bool
deriving DecidableEq

/-- `exitCode === 0 || exitCode === 2`. -/
def planExitOk (p : SpawnSyncResult) : Bool :=
  p.status == some 0 || p.status == some 2

/-- `planResult.stdout || planResult.stderr || ''`. -/
def planOutput (p : SpawnSyncResult) : String :=
  if p.stdout != "" then p.stdout else p.stderr

/-- The error `DriftResult` shape shared by the non-plan exit-code branch
and the `catch` block. -/
def errorResultOf (workspace msg : String) (now : Nat) : DriftResult :=
  { workspace := workspace, hasDrift := false, changes := ⟨0, 0, 0⟩
    details := msg, lastChecked := now, error := some msg }

/-- `checkDrift` past the cache fast path: the `try` block (workspace
select, then plan) and the `catch` block.  A select failure rejects the
awaited promise, so control jumps straight to `catch` and the plan is never
spawned. -/
def checkDriftRun (cache : DriftCache) (now : Nat) (workspace : String)
    (env : DriftEnv) : CheckOutcome :=
  match env.selectResult with
  | .error e =>
    let r := errorResultOf workspace (catchErrorMessage e) now
    ⟨r, cacheSet cache workspace r, true, false⟩
  | .ok _ =>
    if planExitOk env.planResult then
      let r := parsePlanOutput (planOutput env.planResult) workspace now
      ⟨r, cacheSet cache workspace r, true, true⟩
    else
      let r := errorResultOf workspace (planErrorMessage env.planResult) now
      ⟨r, cacheSet cache workspace r, true, true⟩

/-- The cache fast-path condition of `checkDrift`. -/
def cacheFresh (cache : DriftCache) (now : Nat) (workspace : String) : Bool :=
  match cacheGet cache workspace with
  | some cached => now - cached.lastChecked < retentionWindow
  | none => false

/-- `StateDriftDetector.checkDrift`, with `Date.now()` passed in as `now`. -/
def checkDrift (cache : DriftCache) (now : Nat) (workspace : String)
    (env : DriftEnv) : CheckOutcome :=
  match cacheGet cache workspace with
  | some cached =>
    if now - cached.lastChecked < retentionWindow then
      ⟨cached, cache, false, false⟩
    else checkDriftRun cache now workspace env
  | none => checkDriftRun cache now workspace env

/-- `StateDriftDetector.refreshDrift`. -/
def refreshDrift (cache : DriftCache) (now : Nat) (workspace : String)
    (env : DriftEnv) : CheckOutcome :=
  checkDrift (cacheDelete cache workspace) now workspace env

/-! ## Configuration analyzer (`src/analyzer/terraform-analyzer.ts`)

The generic parsed configuration tree (the JSON value produced by the
delegated `hcl2json` converter, or by the fallback parser) is a tagged
JSON-like value. -/

inductive JVal where
  | str (s : String)
  | num (n : Int)
  | boolean (b : Bool)
  | null
  | arr (xs : List JVal)
  | obj (fields : List (String × JVal))

/-- Property access `v.key` on a parsed value: a field of an object, else
`undefined` (`none`). -/
def propGet (v : JVal) (key : String) : Option JVal :=
  match v with
  | .obj fields => fields.lookup key
  | _ => none

/-- `Object.entries`. Objects yield their fields, arrays their elements
keyed by index; primitives yield nothing.  (`Object.entries(null)` throws in
JS; it is unreachable through the guarded source paths modelled here.) -/
def jsEntries : JVal → List (String × JVal)
  | .obj fields => fields
  | .arr xs => (xs.enum.map fun e => (toString e.1, e.2))
  | _ => []

/-- `result.module[name] = {}`-style keyed assignment on a JS object:
replaces an existing binding, else appends. -/
def objAssign (fields : List (String × JVal)) (key : String) (v : JVal) :
    List (String × JVal) :=
  if fields.any (fun e => e.1 == key) then
    fields.map fun e => if e.1 == key then (key, v) else e
  else fields ++ [(key, v)]

structure Provider where
  name : String
  version : Option JVal
  source : Option JVal
  configuration : JVal

/-- Providers contributed by one `required_providers` provider block:
`for (const [name, config] of Object.entries(providerBlock))`. -/
def providersOfBlock (providerBlock : JVal) : List Provider :=
  (jsEntries providerBlock).map fun e =>
    { name := e.1, version := propGet e.2 "version"
      source := propGet e.2 "source", configuration := e.2 }

def concatMap (f : α → List β) : List α → List β
  | [] => []
  | x :: xs => f x ++ concatMap f xs

/-- Providers contributed by one `terraform` block: requires
`required_providers` to be present and an array. -/
def providersOfTerraformBlock (terraformBlock : JVal) : List Provider :=
  match propGet terraformBlock "required_providers" with
  | some (.arr providerBlocks) => concatMap providersOfBlock providerBlocks
  | _ => []

/-- Providers extracted from one parsed file: requires `parsed.terraform` to
be present and an array. -/
def providersOfParsed (parsed : JVal) : List Provider :=
  match propGet parsed "terraform" with
  | some (.arr terraformBlocks) => concatMap providersOfTerraformBlock terraformBlocks
  | _ => []

/-! ### Fallback parser `basicHclParse` -/

/-- `/required_providers\s*\x7b([^\x7d]+)\x7d/` -/
def requiredProvidersPattern : List Tok :=
  [.lit "required_providers".data, .skip0 jsWs, .lit "\x7b".data,
   .cap (fun c => c != '\x7d'), .lit "\x7d".data]

/-- `/(\w+)\s*=\s*\x7b([^\x7d]+)\x7d/g` -/
def innerProviderPattern : List Tok :=
  [.cap wordChar, .skip0 jsWs, .lit "=".data, .skip0 jsWs, .lit "\x7b".data,
   .cap (fun c => c != '\x7d'), .lit "\x7d".data]

/-- `/module\s+"([^"]+)"\s*\x7b([^\x7d]+)\x7d/g` -/
def modulePattern : List Tok :=
  [.lit "module".data, .skip1 jsWs, .lit "\"".data, .cap (fun c => c != '"'),
   .lit "\"".data, .skip0 jsWs, .lit "\x7b".data,
   .cap (fun c => c != '\x7d'), .lit "\x7d".data]

/-- `TerraformAnalyzer.basicHclParse`: the deliberately limited pattern-based
fallback.  Note its `terraform` and `required_providers` values are plain
objects, not the arrays the primary converter produces. -/
def basicHclParse (content : String) : JVal :=
  let terraformFields : List (String × JVal) :=
    match searchToks requiredProvidersPattern content.data with
    | some (caps, _) =>
      let providerContent := caps.getD 0 []
      let rpFields :=
        (searchAll innerProviderPattern providerContent).foldl
          (fun acc caps2 => objAssign acc (String.mk (caps2.getD 0 [])) (.obj []))
          []
      [("terraform", JVal.obj [("required_providers", JVal.obj rpFields)])]
    | none => []
  let moduleFields :=
    (searchAll modulePattern content.data).foldl
      (fun acc caps2 => objAssign acc (String.mk (caps2.getD 0 [])) (.obj []))
      []
  JVal.obj (terraformFields ++ [("module", JVal.obj moduleFields)])

/-- A configuration file as seen by `getProviders` after `parseHcl`: either
the primary converter's tree, or the fallback applied to the raw content. -/
inductive ParsedFile where
  | primary (tree : JVal)
  | fallback (content : String)

def parseHcl : ParsedFile → JVal
  | .primary tree => tree
  | .fallback content => basicHclParse content

/-- `TerraformAnalyzer.getProviders` over the discovered files, with each
file's parse outcome supplied by the environment. -/
def getProviders (files : List ParsedFile) : List Provider :=
  concatMap (fun f => providersOfParsed (parseHcl f)) files

/-! ### Dependency extraction -/

/-- All `$\x7b...\x7d` interpolation bodies of a string, in order, as
collected by `value.match(/\$\x7b([^\x7d]+)\x7d/g)`.  Fuel-driven; the
wrapper supplies one more than the input length, which is never exhausted
since every match or skip consumes at least one character. -/
def interpBodiesAux : Nat → List Char → List String
  | 0, _ => []
  | fuel + 1, cs =>
    match cs with
    | [] => []
    | c :: rest =>
      if c == '$' then
        match rest with
        | '\x7b' :: rest2 =>
          let body := rest2.takeWhile fun x => x != '\x7d'
          match rest2.dropWhile fun x => x != '\x7d' with
          | _ :: rest3 =>
            if body.isEmpty then interpBodiesAux fuel rest
            else String.mk body :: interpBodiesAux fuel rest3
          | [] => interpBodiesAux fuel rest
        | _ => interpBodiesAux fuel rest
      else interpBodiesAux fuel rest

def interpBodies (cs : List Char) : List String :=
  interpBodiesAux (cs.length + 1) cs

/-- References pushed for one string value: each interpolation body that
contains a `.`. -/
def refsOfString (s : String) : List String :=
  (interpBodies s.data).filter fun ref => containsSub ".".data ref.data

mutual

/-- The recursive `extractFromValue` walk of `extractDependencies`. -/
def collectRefs : JVal → List String
  | .str s => refsOfString s
  | .arr xs => collectRefsList xs
  | .obj fields => collectRefsFields fields
  | .num _ => []
  | .boolean _ => []
  | .null => []

def collectRefsList : List JVal → List String
  | [] => []
  | v :: vs => collectRefs v ++ collectRefsList vs

def collectRefsFields : List (String × JVal) → List String
  | [] => []
  | e :: fields => collectRefs e.2 ++ collectRefsFields fields

end

/-- `[...new Set(dependencies)]`: keep the first occurrence of each element. -/
def dedupAux (seen : List String) : List String → List String
  | [] => []
  | x :: xs => if x ∈ seen then dedupAux seen xs else x :: dedupAux (x :: seen) xs

def dedup (l : List String) : List String := dedupAux [] l

/-- `TerraformAnalyzer.extractDependencies`. -/
def extractDependencies (config : JVal) : List String :=
  dedup (collectRefs config)

/-! ### Spec-side provider pair count (refinement reference)

The spec's testable property counts "the total number of key/value pairs
across all `required_providers` blocks in all files".  For primary-parsed
trees the pairs are the entries of the provider blocks reachable through
`terraform[*].required_providers[*]`.  For fallback-parsed files the pairs
live in the raw text; the count below follows the spec's words on the text:
the number of top-level key/value pairs (one `=` per pair, outside nested
braces and string literals) inside the balanced body of each
`required_providers` block. -/

def specPairsOfTerraformBlock (terraformBlock : JVal) : Nat :=
  match propGet terraformBlock "required_providers" with
  | some (.arr providerBlocks) =>
    (providerBlocks.map fun pb => (jsEntries pb).length).sum
  | _ => 0

def specPairsPrimary (parsed : JVal) : Nat :=
  match propGet parsed "terraform" with
  | some (.arr terraformBlocks) =>
    (terraformBlocks.map specPairsOfTerraformBlock).sum
  | _ => 0

/-- The balanced body of a brace block, given the characters following its
opening brace. -/
def balancedBody : List Char → Nat → List Char
  | [], _ => []
  | c :: cs, depth =>
    if c == '\x7d' then
      match depth with
      | 0 => []
      | d + 1 => c :: balancedBody cs d
    else if c == '\x7b' then c :: balancedBody cs (depth + 1)
    else c :: balancedBody cs depth

/-- Count of `=` signs at nesting depth zero and outside double-quoted
strings: one per top-level key/value pair of a block body. -/
def countEqAtTop : List Char → Nat → Bool → Nat
  | [], _, _ => 0
  | c :: cs, depth, inStr =>
    if inStr then countEqAtTop cs depth (c != '"')
    else if c == '"' then countEqAtTop cs depth true
    else if c == '\x7b' then countEqAtTop cs (depth + 1) inStr
    else if c == '\x7d' then countEqAtTop cs (depth - 1) inStr
    else if c == '=' && depth == 0 then 1 + countEqAtTop cs depth inStr
    else countEqAtTop cs depth inStr

/-- Opening of a `required_providers` block in raw text. -/
def rpOpenPattern : List Tok :=
  [.lit "required_providers".data, .skip0 jsWs, .lit "\x7b".data]

def specPairsTextAux (fuel : Nat) (cs : List Char) : Nat :=
  match fuel, searchToks rpOpenPattern cs with
  | _, none => 0
  | 0, some _ => 0
  | fuel + 1, some (_, rest) =>
    countEqAtTop (balancedBody rest 0) 0 false + specPairsTextAux fuel rest

/-- Modelled from the spec: "the total number of key/value pairs across all
`required_providers` blocks" of one raw configuration file (the ground truth
a fallback-parsed file is measured against). -/
def specPairsText (content : String) : Nat :=
  specPairsTextAux (content.data.length + 1) content.data

/-- The spec-side pair count of a file, by parse route. -/
def specPairsFile : ParsedFile → Nat
  | .primary tree => specPairsPrimary tree
  | .fallback content => specPairsText content

/-! ## Workspace enumerator (`src/workspace/workspace-manager.ts`) -/

inductive WorkspaceState where
  | active
  | inactive
deriving DecidableEq

structure Workspace where
  name : String
  isCurrent : Bool
  state : WorkspaceState
deriving DecidableEq

/-- The workspace record built from one non-blank output line. -/
def mkWorkspace (line : List Char) : Workspace :=
  let isCurrent := startsWithChar '*' line
  { name := String.mk (jsTrim (removeFirstChar '*' line))
    isCurrent := isCurrent
    state := if isCurrent then .active else .inactive }

/-- `WorkspaceManager.getWorkspaces`; the environment is the outcome of the
`workspace list` invocation (`Except` as promisified `exec` rejects on any
failure).  The loop `for (const line of lines) if (line.trim()) push(...)`
is the filter-then-map below. -/
def getWorkspaces (env : Except Unit String) : List Workspace :=
  match env with
  | .error _ => []
  | .ok stdout =>
    let lines := splitOnChar '\n' (jsTrim stdout.data)
    ((lines.filter fun l => !(jsTrim l).isEmpty).map mkWorkspace)

/-! ## Tool resolver (`src/utils/terraform-command.ts`) -/

inductive ToolType where
  | terraform
  | opentofu
deriving DecidableEq

structure TerraformCommand where
  command : String
  type : ToolType
  version : Option String
deriving DecidableEq

/-- `/OpenTofu v([\d.]+)/` applied to the probe output, yielding
`versionMatch ? versionMatch[1] : undefined`. -/
def openTofuVersionOf (stdout : String) : Option String :=
  match searchToks [.lit "OpenTofu v".data,
      .cap fun c => c.isDigit || c == '.'] stdout.data with
  | some (caps, _) => some (String.mk (caps.getD 0 []))
  | none => none

/-- `/Terraform v([\d.]+)/` applied to the probe output. -/
def terraformVersionOf (stdout : String) : Option String :=
  match searchToks [.lit "Terraform v".data,
      .cap fun c => c.isDigit || c == '.'] stdout.data with
  | some (caps, _) => some (String.mk (caps.getD 0 []))
  | none => none

/-- Outcomes of the two version probes (`tofu version`, `terraform version`);
promisified `exec` rejects on non-zero exit, timeout or missing binary. -/
structure ProbeEnv where
  tofu : Except Unit String
  terraform : Except Unit String

/-- Result of one `getTerraformCommand` call: the selection, the module
cache afterwards, and whether any probe ran. -/
structure ResolveOutcome where
  result : TerraformCommand
  cache : Option TerraformCommand
  probed : Bool
deriving DecidableEq

/-- `getTerraformCommand`, with the module-level `cachedCommand` passed and
returned explicitly. -/
def getTerraformCommand (cachedCommand : Option TerraformCommand)
    (env : ProbeEnv) : ResolveOutcome :=
  match cachedCommand with
  | some c => ⟨c, some c, false⟩
  | none =>
    match env.tofu with
    | .ok stdout =>
      let c : TerraformCommand :=
        { command := "tofu", type := .opentofu, version := openTofuVersionOf stdout }
      ⟨c, some c, true⟩
    | .error _ =>
      match env.terraform with
      | .ok stdout =>
        let c : TerraformCommand :=
          { command := "terraform", type := .terraform
            version := terraformVersionOf stdout }
        ⟨c, some c, true⟩
      | .error _ =>
        let c : TerraformCommand :=
          { command := "terraform", type := .terraform, version := none }
        ⟨c, some c, true⟩

/-- `clearTerraformCommandCache`. -/
def clearTerraformCommandCache (_ : Option TerraformCommand) :
    Option TerraformCommand :=
  none

/-! ## Lemmas about the drift cache -/

theorem cacheGet_delete_self (cache : DriftCache) (k : String) :
    cacheGet (cacheDelete cache k) k = none := by
  induction cache with
  | nil => rfl
  | cons e rest ih =>
    by_cases h : e.1 = k
    · simpa [cacheDelete, h] using ih
    · simpa [cacheDelete, cacheGet, h] using ih

theorem cacheGet_delete_ne (cache : DriftCache) (k key : String)
    (h : key ≠ k) : cacheGet (cacheDelete cache k) key = cacheGet cache key := by
  induction cache with
  | nil => rfl
  | cons e rest ih =>
    by_cases he : e.1 = k
    · have h2 : k ≠ key := fun hk => h hk.symm
      simpa [cacheDelete, cacheGet, he, h2] using ih
    · by_cases hkey : e.1 = key
      · simp [cacheDelete, cacheGet, he, hkey, h]
      · simpa [cacheDelete, cacheGet, he, hkey] using ih

theorem cacheGet_set_self (cache : DriftCache) (k : String) (v : DriftResult) :
    cacheGet (cacheSet cache k v) k = some v := by
  simp [cacheSet, cacheGet]

theorem cacheGet_set_ne (cache : DriftCache) (k key : String) (v : DriftResult)
    (h : key ≠ k) : cacheGet (cacheSet cache k v) key = cacheGet cache key := by
  have : k ≠ key := fun hk => h hk.symm
  simp [cacheSet, cacheGet, this, cacheGet_delete_ne cache k key h]

/-! ## The hasDrift invariant of the plan-output scan -/

/-- The invariant of the line loop: `hasDrift` is exactly "some count is
positive". -/
def planScanOk (st : PlanScan) : Prop :=
  st.hasDrift =
    (decide (st.add > 0) || decide (st.change > 0) || decide (st.destroy > 0))

theorem planLineStep_ok (st : PlanScan) (line : List Char)
    (h : planScanOk st) : planScanOk (planLineStep st line) := by
  unfold planLineStep
  split
  · split
    · rfl
    · exact h
  · exact h

theorem foldl_planLineStep_ok (lines : List (List Char)) (st : PlanScan)
    (h : planScanOk st) : planScanOk (lines.foldl planLineStep st) := by
  induction lines generalizing st with
  | nil => exact h
  | cons l ls ih => exact ih _ (planLineStep_ok st l h)

theorem noChangesScan_ok (lines : List (List Char)) (st : PlanScan)
    (h : planScanOk st) : planScanOk (noChangesScan lines st) := by
  unfold noChangesScan
  split
  · split
    · rename_i hzero _
      simp only [Bool.and_eq_true, beq_iff_eq] at hzero
      simp [planScanOk, hzero.1.1, hzero.1.2, hzero.2]
    · exact h
  · exact h

theorem parsePlanOutput_hasDrift (output workspace : String) (now : Nat) :
    (parsePlanOutput output workspace now).hasDrift =
      (decide ((parsePlanOutput output workspace now).changes.add > 0) ||
       decide ((parsePlanOutput output workspace now).changes.change > 0) ||
       decide ((parsePlanOutput output workspace now).changes.destroy > 0)) :=
  noChangesScan_ok _ _ (foldl_planLineStep_ok _ _ rfl)

/-- The `DriftResult` invariant of the spec: without an error, `hasDrift`
mirrors the counts; with an error, no drift and the zero triple. -/
def resultInvB (r : DriftResult) : Bool :=
  match r.error with
  | none =>
    r.hasDrift ==
      (decide (r.changes.add > 0) || decide (r.changes.change > 0) ||
       decide (r.changes.destroy > 0))
  | some _ =>
    r.hasDrift == false && r.changes.add == 0 && r.changes.change == 0 &&
      r.changes.destroy == 0

theorem resultInvB_parse (output workspace : String) (now : Nat) :
    resultInvB (parsePlanOutput output workspace now) = true := by
  unfold resultInvB
  rw [show (parsePlanOutput output workspace now).error = none from rfl]
  simp [parsePlanOutput_hasDrift output workspace now]

/-! ## Lemmas about one `checkDrift` run -/

theorem checkDriftRun_selectInvoked (cache : DriftCache) (now : Nat)
    (workspace : String) (env : DriftEnv) :
    (checkDriftRun cache now workspace env).selectInvoked = true := by
  cases henv : env.selectResult with
  | error e => simp [checkDriftRun, henv]
  | ok u =>
    simp only [checkDriftRun, henv]
    split <;> rfl

theorem checkDriftRun_cache_eq (cache : DriftCache) (now : Nat)
    (workspace : String) (env : DriftEnv) :
    (checkDriftRun cache now workspace env).cache =
      cacheSet cache workspace (checkDriftRun cache now workspace env).result := by
  cases henv : env.selectResult with
  | error e => simp [checkDriftRun, henv]
  | ok u =>
    simp only [checkDriftRun, henv]
    split <;> rfl

theorem checkDriftRun_lastChecked (cache : DriftCache) (now : Nat)
    (workspace : String) (env : DriftEnv) :
    (checkDriftRun cache now workspace env).result.lastChecked = now := by
  cases henv : env.selectResult with
  | error e => simp [checkDriftRun, henv, errorResultOf]
  | ok u =>
    simp only [checkDriftRun, henv]
    split
    · rfl
    · rfl

theorem checkDriftRun_inv (cache : DriftCache) (now : Nat)
    (workspace : String) (env : DriftEnv) :
    resultInvB (checkDriftRun cache now workspace env).result = true := by
  cases henv : env.selectResult with
  | error e => simp [checkDriftRun, henv, errorResultOf, resultInvB]
  | ok u =>
    simp only [checkDriftRun, henv]
    split
    · exact resultInvB_parse _ _ _
    · simp [errorResultOf, resultInvB]

theorem checkDrift_of_get_none (cache : DriftCache) (now : Nat)
    (workspace : String) (env : DriftEnv)
    (h : cacheGet cache workspace = none) :
    checkDrift cache now workspace env = checkDriftRun cache now workspace env := by
  unfold checkDrift
  rw [h]

theorem checkDrift_of_fresh (cache : DriftCache) (now : Nat)
    (workspace : String) (env : DriftEnv) (r : DriftResult)
    (h : cacheGet cache workspace = some r)
    (hf : now - r.lastChecked < retentionWindow) :
    checkDrift cache now workspace env = ⟨r, cache, false, false⟩ := by
  unfold checkDrift
  rw [h]
  exact if_pos hf

theorem checkDrift_of_stale (cache : DriftCache) (now : Nat)
    (workspace : String) (env : DriftEnv) (r : DriftResult)
    (h : cacheGet cache workspace = some r)
    (hf : ¬ now - r.lastChecked < retentionWindow) :
    checkDrift cache now workspace env = checkDriftRun cache now workspace env := by
  unfold checkDrift
  rw [h]
  exact if_neg hf

/-- Whenever the cache fast path does not apply — no entry for the
workspace, or an entry at least the retention window old — `checkDrift`
runs the full select/plan sequence. -/
theorem checkDrift_of_not_fresh (cache : DriftCache) (now : Nat)
    (workspace : String) (env : DriftEnv)
    (h : cacheFresh cache now workspace = false) :
    checkDrift cache now workspace env = checkDriftRun cache now workspace env := by
  unfold cacheFresh at h
  cases hg : cacheGet cache workspace with
  | none => exact checkDrift_of_get_none _ _ _ _ hg
  | some r =>
    rw [hg] at h
    exact checkDrift_of_stale _ _ _ _ _ hg (by simpa using h)

theorem checkDriftRun_cache_inv (cache : DriftCache) (now : Nat)
    (workspace : String) (env : DriftEnv)
    (hcache : ∀ k r, cacheGet cache k = some r → resultInvB r = true) :
    ∀ k r, cacheGet (checkDriftRun cache now workspace env).cache k = some r →
      resultInvB r = true := by
  intro k r hk
  rw [checkDriftRun_cache_eq] at hk
  by_cases hkw : k = workspace
  · subst hkw
    rw [cacheGet_set_self] at hk
    injection hk with hh
    exact hh ▸ checkDriftRun_inv _ _ _ _
  · rw [cacheGet_set_ne _ _ _ _ hkw] at hk
    exact hcache _ _ hk

/-! ## Concrete environments used by the witnesses -/

def envSelectFail : DriftEnv :=
  ⟨.error ⟨none, "", "spawn terraform ENOENT"⟩, ⟨some 0, "", "", none⟩⟩

def envPlanDrift : DriftEnv :=
  ⟨.ok (), ⟨some 2, "Plan: 2 to add, 1 to change, 0 to destroy.", "", none⟩⟩

def envPlanError : DriftEnv :=
  ⟨.ok (), ⟨some 1, "", "boom", none⟩⟩

def cachedNoDrift : DriftResult :=
  { workspace := "default", hasDrift := false, changes := ⟨0, 0, 0⟩
    details := "No changes. Infrastructure is up-to-date."
    lastChecked := 50, error := none }

/-! ## Claim theorems -/

/-- C1, as stated by the spec, is false: it asserts that a failing
`terraform workspace select` does not short-circuit `checkDrift` and that
the plan is still attempted, but the select runs through promisified `exec`
inside the `try` block, so its failure rejects the awaited promise and lands
in `catch` before the plan is spawned. -/
theorem checkDrift_select_failure_claim_false :
    ¬ (∀ (cache : DriftCache) (now : Nat) (workspace : String)
        (env : DriftEnv) (e : ExecFailure),
        cacheGet cache workspace = none → env.selectResult = .error e →
        (checkDrift cache now workspace env).planInvoked = true) := by
  intro hclaim
  have h := hclaim [] 0 "default"
    ⟨.error ⟨none, "", "spawn terraform ENOENT"⟩, ⟨some 0, "", "", none⟩⟩
    ⟨none, "", "spawn terraform ENOENT"⟩ rfl rfl
  exact absurd h (by decide)

/-- C1 (amended): whenever `checkDrift` actually runs the subprocess
sequence (no cached entry, or only a stale one at least five minutes old)
and the workspace-select subcommand fails, the failure is captured —
`checkDrift` returns an error `DriftResult` and caches it — but it DOES
short-circuit: the plan subcommand is not attempted in that invocation. -/
theorem checkDrift_select_failure_short_circuits (cache : DriftCache)
    (now : Nat) (workspace : String) (env : DriftEnv) (e : ExecFailure)
    (hmiss : cacheFresh cache now workspace = false)
    (hsel : env.selectResult = .error e) :
    (checkDrift cache now workspace env).selectInvoked = true ∧
    (checkDrift cache now workspace env).planInvoked = false ∧
    (checkDrift cache now workspace env).result.error =
      some (catchErrorMessage e) ∧
    cacheGet (checkDrift cache now workspace env).cache workspace =
      some (checkDrift cache now workspace env).result := by
  rw [checkDrift_of_not_fresh _ _ _ _ hmiss]
  unfold checkDriftRun
  rw [hsel]
  exact ⟨rfl, rfl, rfl, cacheGet_set_self _ _ _⟩

theorem checkDrift_select_failure_short_circuits_witness :
    (checkDrift [("default", cachedNoDrift)] 10000000 "default"
      envSelectFail).selectInvoked = true ∧
    (checkDrift [("default", cachedNoDrift)] 10000000 "default"
      envSelectFail).planInvoked = false ∧
    (checkDrift [("default", cachedNoDrift)] 10000000 "default"
      envSelectFail).result.error =
      some (catchErrorMessage ⟨none, "", "spawn terraform ENOENT"⟩) ∧
    cacheGet (checkDrift [("default", cachedNoDrift)] 10000000 "default"
      envSelectFail).cache "default" =
      some (checkDrift [("default", cachedNoDrift)] 10000000 "default"
        envSelectFail).result :=
  checkDrift_select_failure_short_circuits [("default", cachedNoDrift)]
    10000000 "default" envSelectFail ⟨none, "", "spawn terraform ENOENT"⟩
    (by decide) rfl

/-- C2: every `DriftResult` produced by `checkDrift` (over any cache whose
entries themselves satisfy the invariant, as all cached entries are earlier
`checkDrift` products) satisfies: without an error, `hasDrift` equals "some
count is positive"; with an error, `hasDrift` is false and the counts are
the zero triple.  The resulting cache again consists of such results. -/
theorem checkDrift_result_invariant (cache : DriftCache) (now : Nat)
    (workspace : String) (env : DriftEnv)
    (hcache : ∀ k r, cacheGet cache k = some r → resultInvB r = true) :
    resultInvB (checkDrift cache now workspace env).result = true ∧
    ∀ k r, cacheGet (checkDrift cache now workspace env).cache k = some r →
      resultInvB r = true := by
  cases hg : cacheGet cache workspace with
  | some cached =>
    by_cases hf : now - cached.lastChecked < retentionWindow
    · rw [checkDrift_of_fresh cache now workspace env cached hg hf]
      exact ⟨hcache _ _ hg, hcache⟩
    · rw [checkDrift_of_stale cache now workspace env cached hg hf]
      exact ⟨checkDriftRun_inv _ _ _ _, checkDriftRun_cache_inv _ _ _ _ hcache⟩
  | none =>
    rw [checkDrift_of_get_none _ _ _ _ hg]
    exact ⟨checkDriftRun_inv _ _ _ _, checkDriftRun_cache_inv _ _ _ _ hcache⟩

theorem checkDrift_result_invariant_witness :
    resultInvB (checkDrift [] 0 "default" envPlanDrift).result = true :=
  (checkDrift_result_invariant [] 0 "default" envPlanDrift
    fun _ _ h => nomatch h).1

/-- C3: a cached result younger than the five-minute retention window is
returned as-is with no subprocess invoked; hence of two `checkDrift` calls
for one workspace within the window, only the first invokes the external
tool; `refreshDrift` evicts that workspace's entry first and always runs
the full check again. -/
theorem checkDrift_cache_behaviour (cache : DriftCache) (now now2 : Nat)
    (workspace : String) (r : DriftResult) (env env2 : DriftEnv) :
    (cacheGet cache workspace = some r →
      now - r.lastChecked < retentionWindow →
      checkDrift cache now workspace env = ⟨r, cache, false, false⟩) ∧
    (cacheGet cache workspace = none → now2 - now < retentionWindow →
      (checkDrift cache now workspace env).selectInvoked = true ∧
      checkDrift (checkDrift cache now workspace env).cache now2 workspace env2 =
        ⟨(checkDrift cache now workspace env).result,
         (checkDrift cache now workspace env).cache, false, false⟩) ∧
    (refreshDrift cache now workspace env).selectInvoked = true := by
  refine ⟨fun hg hf => checkDrift_of_fresh _ _ _ _ _ hg hf, fun hg hf => ?_, ?_⟩
  · rw [checkDrift_of_get_none _ _ _ _ hg]
    refine ⟨checkDriftRun_selectInvoked _ _ _ _, ?_⟩
    have hc : cacheGet (checkDriftRun cache now workspace env).cache workspace =
        some (checkDriftRun cache now workspace env).result := by
      rw [checkDriftRun_cache_eq]
      exact cacheGet_set_self _ _ _
    refine checkDrift_of_fresh _ _ _ _ _ hc ?_
    rw [checkDriftRun_lastChecked]
    exact hf
  · unfold refreshDrift
    rw [checkDrift_of_get_none _ _ _ _ (cacheGet_delete_self cache workspace)]
    exact checkDriftRun_selectInvoked _ _ _ _

theorem checkDrift_cache_behaviour_witness :
    (checkDrift [("default", cachedNoDrift)] 100 "default" envPlanDrift =
      ⟨cachedNoDrift, [("default", cachedNoDrift)], false, false⟩) ∧
    ((checkDrift [] 0 "default" envPlanDrift).selectInvoked = true) ∧
    (checkDrift (checkDrift [] 0 "default" envPlanDrift).cache 1000 "default"
        envPlanError =
      ⟨(checkDrift [] 0 "default" envPlanDrift).result,
       (checkDrift [] 0 "default" envPlanDrift).cache, false, false⟩) ∧
    ((refreshDrift [("default", cachedNoDrift)] 100 "default" envPlanDrift).selectInvoked
      = true) := by
  have h1 := checkDrift_cache_behaviour [("default", cachedNoDrift)] 100 0
    "default" cachedNoDrift envPlanDrift envPlanError
  have h2 := checkDrift_cache_behaviour [] 0 1000 "default" cachedNoDrift
    envPlanDrift envPlanError
  have hmiss := h2.2.1 rfl (by decide)
  exact ⟨h1.1 rfl (by decide), hmiss.1, hmiss.2, h1.2.2⟩

/-- C10: `refreshDrift` for one workspace leaves every other workspace's
cache entry unchanged: only the refreshed key is evicted and rewritten. -/
theorem refreshDrift_frame (cache : DriftCache) (now : Nat) (w v : String)
    (env : DriftEnv) (hne : v ≠ w) :
    cacheGet (refreshDrift cache now w env).cache v = cacheGet cache v := by
  unfold refreshDrift
  rw [checkDrift_of_get_none _ _ _ _ (cacheGet_delete_self cache w),
    checkDriftRun_cache_eq, cacheGet_set_ne _ _ _ _ hne,
    cacheGet_delete_ne cache w v hne]

theorem planExitOk_iff (p : SpawnSyncResult) :
    planExitOk p = true ↔ (p.status = some 0 ∨ p.status = some 2) := by
  simp [planExitOk]

theorem checkDriftRun_eq_of_exit (cache : DriftCache) (now : Nat)
    (workspace : String) (env : DriftEnv)
    (hsel : env.selectResult = .ok ())
    (hex : planExitOk env.planResult = true) :
    checkDriftRun cache now workspace env =
      ⟨parsePlanOutput (planOutput env.planResult) workspace now,
       cacheSet cache workspace
         (parsePlanOutput (planOutput env.planResult) workspace now),
       true, true⟩ := by
  simp [checkDriftRun, hsel, hex]

theorem checkDriftRun_eq_of_planError (cache : DriftCache) (now : Nat)
    (workspace : String) (env : DriftEnv)
    (hsel : env.selectResult = .ok ())
    (hex : planExitOk env.planResult = false) :
    checkDriftRun cache now workspace env =
      ⟨errorResultOf workspace (planErrorMessage env.planResult) now,
       cacheSet cache workspace
         (errorResultOf workspace (planErrorMessage env.planResult) now),
       true, true⟩ := by
  simp [checkDriftRun, hsel, hex]

theorem append_ne_empty (a b : String) (ha : a.length ≠ 0) : a ++ b ≠ "" := by
  intro hab
  have hl : (a ++ b).length = 0 := by
    rw [hab]
    rfl
  rw [String.length_append] at hl
  omega

theorem planErrorMessage_ne_empty (p : SpawnSyncResult) :
    planErrorMessage p ≠ "" := by
  unfold planErrorMessage
  cases p.error with
  | some m => exact append_ne_empty _ _ (by decide)
  | none =>
    by_cases hs : (p.stderr != "") = true
    · rw [if_pos hs]
      exact append_ne_empty _ _ (by decide)
    · rw [if_neg hs]
      decide

/-- C4: for every plan invocation — any run past the cache fast path (no
entry, or a stale one) whose workspace select succeeded — a plan exit code
of 0 or 2 leads to parsing the captured output into a success `DriftResult`
(no error field); any other outcome — including the `null` status of a
timeout or spawn error — yields a `DriftResult` carrying a non-empty error
message, never an exception (`checkDrift` is a total function here); in
every case the result is stored in the cache under the workspace key with
the current timestamp. -/
theorem checkDrift_plan_outcome (cache : DriftCache) (now : Nat)
    (workspace : String) (env : DriftEnv)
    (hmiss : cacheFresh cache now workspace = false)
    (hsel : env.selectResult = .ok ()) :
    (planExitOk env.planResult = true ↔
      (env.planResult.status = some 0 ∨ env.planResult.status = some 2)) ∧
    (planExitOk env.planResult = true →
      (checkDrift cache now workspace env).result =
        parsePlanOutput (planOutput env.planResult) workspace now ∧
      (checkDrift cache now workspace env).result.error = none) ∧
    (planExitOk env.planResult = false →
      (checkDrift cache now workspace env).result.error =
        some (planErrorMessage env.planResult) ∧
      planErrorMessage env.planResult ≠ "") ∧
    cacheGet (checkDrift cache now workspace env).cache workspace =
      some (checkDrift cache now workspace env).result ∧
    (checkDrift cache now workspace env).result.lastChecked = now ∧
    (checkDrift cache now workspace env).planInvoked = true := by
  rw [checkDrift_of_not_fresh _ _ _ _ hmiss]
  refine ⟨planExitOk_iff env.planResult, ?_, ?_, ?_,
    checkDriftRun_lastChecked _ _ _ _, ?_⟩
  · intro hex
    rw [checkDriftRun_eq_of_exit cache now workspace env hsel hex]
    exact ⟨rfl, rfl⟩
  · intro hex
    rw [checkDriftRun_eq_of_planError cache now workspace env hsel hex]
    exact ⟨rfl, planErrorMessage_ne_empty _⟩
  · rw [checkDriftRun_cache_eq]
    exact cacheGet_set_self _ _ _
  · cases hex : planExitOk env.planResult
    · rw [checkDriftRun_eq_of_planError cache now workspace env hsel hex]
    · rw [checkDriftRun_eq_of_exit cache now workspace env hsel hex]

theorem checkDrift_plan_outcome_witness :
    (checkDrift [("default", cachedNoDrift)] 10000000 "default"
      envPlanError).result.error =
      some (planErrorMessage envPlanError.planResult) ∧
    cacheGet (checkDrift [("default", cachedNoDrift)] 10000000 "default"
      envPlanError).cache "default" =
      some (checkDrift [("default", cachedNoDrift)] 10000000 "default"
        envPlanError).result ∧
    (checkDrift [("default", cachedNoDrift)] 10000000 "default"
      envPlanError).planInvoked = true := by
  have h := checkDrift_plan_outcome [("default", cachedNoDrift)] 10000000
    "default" envPlanError (by decide) rfl
  exact ⟨(h.2.2.1 (by decide)).1, h.2.2.2.1, h.2.2.2.2.2⟩

/-- C5: `parsePlanOutput` maps output with the line
`Plan: 2 to add, 1 to change, 0 to destroy.` — also when the line is wrapped
in ANSI colour escapes — to counts 2/1/0 with drift, and output
`No changes. Infrastructure is up-to-date.` without a Plan line to the zero
triple without drift. -/
theorem parsePlanOutput_examples :
    (parsePlanOutput "Plan: 2 to add, 1 to change, 0 to destroy." "w" 0).changes =
      ⟨2, 1, 0⟩ ∧
    (parsePlanOutput "Plan: 2 to add, 1 to change, 0 to destroy." "w" 0).hasDrift =
      true ∧
    (parsePlanOutput "\x1b[1mPlan: 2 to add, 1 to change, 0 to destroy.\x1b[0m"
      "w" 0).changes = ⟨2, 1, 0⟩ ∧
    (parsePlanOutput "\x1b[1mPlan: 2 to add, 1 to change, 0 to destroy.\x1b[0m"
      "w" 0).hasDrift = true ∧
    (parsePlanOutput "No changes. Infrastructure is up-to-date." "w" 0).changes =
      ⟨0, 0, 0⟩ ∧
    (parsePlanOutput "No changes. Infrastructure is up-to-date." "w" 0).hasDrift =
      false := by
  decide

theorem refreshDrift_frame_witness :
    cacheGet (refreshDrift [("prod", cachedNoDrift)] 0 "default"
      envPlanDrift).cache "prod" =
      cacheGet [("prod", cachedNoDrift)] "prod" :=
  refreshDrift_frame [("prod", cachedNoDrift)] 0 "default" "prod" envPlanDrift
    (by decide)

/-! ## Dedup lemmas and C7 -/

theorem mem_dedupAux (x : String) (l : List String) :
    ∀ seen, x ∈ dedupAux seen l ↔ (x ∈ l ∧ x ∉ seen) := by
  induction l with
  | nil =>
    intro seen
    simp [dedupAux]
  | cons y ys ih =>
    intro seen
    by_cases hy : y ∈ seen
    · rw [show dedupAux seen (y :: ys) = dedupAux seen ys from by
        simp [dedupAux, hy]]
      rw [ih seen]
      constructor
      · exact fun h => ⟨List.mem_cons_of_mem _ h.1, h.2⟩
      · rintro ⟨h1, h2⟩
        rcases List.mem_cons.mp h1 with rfl | h1
        · exact absurd hy h2
        · exact ⟨h1, h2⟩
    · rw [show dedupAux seen (y :: ys) = y :: dedupAux (y :: seen) ys from by
        simp [dedupAux, hy]]
      rw [List.mem_cons, ih (y :: seen)]
      constructor
      · rintro (rfl | ⟨h1, h2⟩)
        · exact ⟨List.mem_cons_self _ _, hy⟩
        · refine ⟨List.mem_cons_of_mem _ h1, fun hseen => ?_⟩
          exact h2 (List.mem_cons_of_mem _ hseen)
      · rintro ⟨h1, h2⟩
        by_cases hxy : x = y
        · exact Or.inl hxy
        · rcases List.mem_cons.mp h1 with h | h
          · exact absurd h hxy
          · refine Or.inr ⟨h, fun hc => ?_⟩
            rcases List.mem_cons.mp hc with h3 | h3
            · exact hxy h3
            · exact h2 h3

theorem nodup_dedupAux (l : List String) : ∀ seen, (dedupAux seen l).Nodup := by
  induction l with
  | nil =>
    intro seen
    simp [dedupAux]
  | cons y ys ih =>
    intro seen
    by_cases hy : y ∈ seen
    · rw [show dedupAux seen (y :: ys) = dedupAux seen ys from by
        simp [dedupAux, hy]]
      exact ih seen
    · rw [show dedupAux seen (y :: ys) = y :: dedupAux (y :: seen) ys from by
        simp [dedupAux, hy]]
      refine List.nodup_cons.mpr ⟨fun hmem => ?_, ih (y :: seen)⟩
      exact ((mem_dedupAux y ys (y :: seen)).mp hmem).2 (List.mem_cons_self y seen)

/-- C7: dependency extraction returns exactly the `$\x7b...\x7d` interpolation
bodies containing a `.` found in string values of the configuration tree,
deduplicated: `$\x7baws_instance.web.id\x7d` yields `aws_instance.web.id`, a
dotless `$\x7bupper()\x7d` yields nothing, duplicates across attributes
collapse to one entry, and in general the result is the duplicate-free list
of the collected references. -/
theorem extractDependencies_spec :
    extractDependencies
        (.obj [("a", .str "$\x7baws_instance.web.id\x7d")]) =
      ["aws_instance.web.id"] ∧
    extractDependencies (.str "$\x7bupper()\x7d") = [] ∧
    extractDependencies
        (.obj [("a", .str "$\x7baws_instance.web.id\x7d"),
               ("b", .str "$\x7baws_instance.web.id\x7d")]) =
      ["aws_instance.web.id"] ∧
    (∀ config : JVal, (extractDependencies config).Nodup) ∧
    (∀ (config : JVal) (x : String),
      x ∈ extractDependencies config ↔ x ∈ collectRefs config) := by
  refine ⟨by decide, by decide, by decide, ?_, ?_⟩
  · intro config
    exact nodup_dedupAux _ _
  · intro config x
    unfold extractDependencies dedup
    rw [mem_dedupAux]
    simp

/-! ## Provider counting and C6 -/

theorem length_concatMap (f : α → List β) (l : List α) :
    (concatMap f l).length = (l.map fun x => (f x).length).sum := by
  induction l with
  | nil => rfl
  | cons x xs ih => simp [concatMap, ih]

theorem providersOfTerraformBlock_length (t : JVal) :
    (providersOfTerraformBlock t).length = specPairsOfTerraformBlock t := by
  unfold providersOfTerraformBlock specPairsOfTerraformBlock
  cases hrp : propGet t "required_providers" with
  | none => rfl
  | some v =>
    cases v with
    | arr pbs =>
      rw [length_concatMap]
      simp [providersOfBlock]
    | str s => rfl
    | num n => rfl
    | boolean b => rfl
    | null => rfl
    | obj fs => rfl

theorem providersOfParsed_length (parsed : JVal) :
    (providersOfParsed parsed).length = specPairsPrimary parsed := by
  unfold providersOfParsed specPairsPrimary
  cases ht : propGet parsed "terraform" with
  | none => rfl
  | some v =>
    cases v with
    | arr ts =>
      rw [length_concatMap]
      simp [providersOfTerraformBlock_length]
    | str s => rfl
    | num n => rfl
    | boolean b => rfl
    | null => rfl
    | obj fs => rfl

theorem providersOfParsed_basicHclParse (content : String) :
    providersOfParsed (basicHclParse content) = [] := by
  unfold basicHclParse providersOfParsed
  cases hs : searchToks requiredProvidersPattern content.data with
  | none => rfl
  | some r => rfl

/-- What each file in fact contributes to the provider count. -/
def codePairsFile : ParsedFile → Nat
  | .primary tree => specPairsPrimary tree
  | .fallback _ => 0

/-- The sample file whose `required_providers` block declares exactly one
provider (`aws`); parsed through the fallback it contributes no `Provider`
entities. -/
def fallbackContent : String :=
  "terraform \x7b\n  required_providers \x7b\n    aws = \x7b\n      source = \"hashicorp/aws\"\n    \x7d\n  \x7d\n\x7d\n"

/-- C6, as stated, is false: for a file parsed through the fallback parser,
the extracted `Provider` count does not match the number of key/value pairs
of its `required_providers` block.  The fallback emits `terraform` as a
plain object while `getProviders` requires an array (and the fallback's
inner provider regex can never match inside an outer capture that excludes
closing braces), so such a file contributes zero providers. -/
theorem getProviders_fallback_claim_false :
    ¬ (∀ files : List ParsedFile,
        (getProviders files).length = (files.map specPairsFile).sum) := by
  intro hclaim
  have h := hclaim [.fallback fallbackContent]
  have h0 : (getProviders [ParsedFile.fallback fallbackContent]).length = 0 := by
    decide
  have h1 : ([ParsedFile.fallback fallbackContent].map specPairsFile).sum = 1 := by
    decide
  rw [h0, h1] at h
  exact absurd h (by decide)

/-- C6 (amended): for primary-parsed trees the extracted `Provider` count
equals the total number of key/value pairs across all
`terraform[*].required_providers[*]` blocks; a fallback-parsed file always
contributes zero `Provider` entities; hence the total count is the sum over
primary files only. -/
theorem getProviders_count (files : List ParsedFile) (tree : JVal)
    (content : String) :
    (providersOfParsed tree).length = specPairsPrimary tree ∧
    providersOfParsed (basicHclParse content) = [] ∧
    (getProviders files).length = (files.map codePairsFile).sum := by
  refine ⟨providersOfParsed_length tree, providersOfParsed_basicHclParse content, ?_⟩
  induction files with
  | nil => rfl
  | cons f fs ih =>
    show (providersOfParsed (parseHcl f) ++ getProviders fs).length =
      codePairsFile f + (fs.map codePairsFile).sum
    rw [List.length_append, ih]
    congr 1
    cases f with
    | primary t => exact providersOfParsed_length t
    | fallback c =>
      show (providersOfParsed (basicHclParse c)).length = 0
      rw [providersOfParsed_basicHclParse c]
      rfl

/-! ## Tool resolver: C8 -/

def envProbeSecondary : ProbeEnv :=
  ⟨.error (), .ok "Terraform v1.5.7\non linux_amd64"⟩

/-- C8: when the OpenTofu probe fails and the Terraform probe succeeds, the
cached selection carries the secondary's kind, command and the version
parsed from its output (`Terraform v1.5.7...` parses to `1.5.7`); clearing
the cache and resolving again re-probes instead of returning a stale
selection. -/
theorem getTerraformCommand_secondary_and_invalidate
    (env : ProbeEnv) (out : String) (cached : Option TerraformCommand)
    (htofu : env.tofu = .error ()) (hterr : env.terraform = .ok out) :
    (getTerraformCommand none env).result.type = .terraform ∧
    (getTerraformCommand none env).result.command = "terraform" ∧
    (getTerraformCommand none env).result.version = terraformVersionOf out ∧
    (getTerraformCommand none env).cache =
      some (getTerraformCommand none env).result ∧
    getTerraformCommand (clearTerraformCommandCache cached) env =
      getTerraformCommand none env ∧
    (getTerraformCommand (clearTerraformCommandCache cached) env).probed = true ∧
    terraformVersionOf "Terraform v1.5.7\non linux_amd64" = some "1.5.7" := by
  have hmain : getTerraformCommand none env =
      ⟨⟨"terraform", .terraform, terraformVersionOf out⟩,
       some ⟨"terraform", .terraform, terraformVersionOf out⟩, true⟩ := by
    simp [getTerraformCommand, htofu, hterr]
  rw [show clearTerraformCommandCache cached = none from rfl, hmain]
  exact ⟨rfl, rfl, rfl, rfl, rfl, rfl, by decide⟩

theorem getTerraformCommand_secondary_and_invalidate_witness :
    (getTerraformCommand none envProbeSecondary).result.type = .terraform ∧
    (getTerraformCommand none envProbeSecondary).result.version =
      terraformVersionOf "Terraform v1.5.7\non linux_amd64" ∧
    (getTerraformCommand
      (clearTerraformCommandCache (some ⟨"tofu", .opentofu, none⟩))
      envProbeSecondary).probed = true := by
  have h := getTerraformCommand_secondary_and_invalidate envProbeSecondary
    "Terraform v1.5.7\non linux_amd64" (some ⟨"tofu", .opentofu, none⟩) rfl rfl
  exact ⟨h.1, h.2.2.1, h.2.2.2.2.2.1⟩

/-! ## Workspace parsing: C9 -/

theorem dropWhile_head_false (p : Char → Bool) (l : List Char) (c : Char)
    (cs : List Char) (h : l.dropWhile p = c :: cs) : p c = false := by
  induction l with
  | nil => simp [List.dropWhile] at h
  | cons d ds ih =>
    rw [List.dropWhile_cons] at h
    split at h
    · exact ih h
    · rename_i hd
      injection h with h1 h2
      rw [← h1]
      cases hpd : p d with
      | false => rfl
      | true => exact absurd hpd hd

theorem dropWhile_suffix (p : Char → Bool) (l : List Char) :
    ∃ t, l = t ++ l.dropWhile p := by
  induction l with
  | nil => exact ⟨[], rfl⟩
  | cons c cs ih =>
    by_cases hc : p c = true
    · obtain ⟨t, ht⟩ := ih
      refine ⟨c :: t, ?_⟩
      rw [List.dropWhile_cons, if_pos hc, List.cons_append, ← ht]
    · exact ⟨[], by simp [List.dropWhile_cons, hc]⟩

theorem dropWhile_idem (p : Char → Bool) (l : List Char) :
    (l.dropWhile p).dropWhile p = l.dropWhile p := by
  cases hd : l.dropWhile p with
  | nil => rfl
  | cons c cs =>
    rw [List.dropWhile_cons, dropWhile_head_false p l c cs hd]
    simp

theorem jsTrim_head_false (l : List Char) (c : Char) (cs : List Char)
    (h : jsTrim l = c :: cs) : jsWs c = false := by
  unfold jsTrim at h
  obtain ⟨t, ht⟩ :=
    dropWhile_suffix (fun c => jsWs c) (l.dropWhile fun c => jsWs c).reverse
  have hA : (l.dropWhile fun c => jsWs c) =
      ((l.dropWhile fun c => jsWs c).reverse.dropWhile fun c =>
        jsWs c).reverse ++ t.reverse := by
    have h2 := congrArg List.reverse ht
    simpa using h2
  rw [h] at hA
  exact dropWhile_head_false (fun c => jsWs c) l c (cs ++ t.reverse)
    (by rw [hA]; rfl)

theorem jsTrim_idem (l : List Char) : jsTrim (jsTrim l) = jsTrim l := by
  have h1 : (jsTrim l).dropWhile (fun c => jsWs c) = jsTrim l := by
    cases hl : jsTrim l with
    | nil => rfl
    | cons c cs =>
      rw [List.dropWhile_cons, jsTrim_head_false l c cs hl]
      simp
  have h2 : (jsTrim l).reverse =
      (l.dropWhile fun c => jsWs c).reverse.dropWhile fun c => jsWs c := by
    unfold jsTrim
    exact List.reverse_reverse _
  show ((jsTrim l).dropWhile (fun c => jsWs c)
    |>.reverse.dropWhile fun c => jsWs c).reverse = jsTrim l
  rw [h1, h2, dropWhile_idem]
  rfl

/-- C9: `getWorkspaces` never throws — an invocation failure yields the
empty list; on success the trimmed stdout is split into lines, blank lines
are skipped (the list length equals the count of non-blank lines), a line's
leading `*` marks its workspace current and is stripped from the name (the
name is the trimmed remainder), every workspace name is trimmed, lines
without a leading `*` yield non-current workspaces, and `state` is `active`
exactly for the current one. -/
theorem getWorkspaces_spec (e : Unit) (out : String) (ws : Workspace) :
    getWorkspaces (.error e) = [] ∧
    (getWorkspaces (.ok out)).length =
      ((splitOnChar '\n' (jsTrim out.data)).filter
        fun l => !(jsTrim l).isEmpty).length ∧
    (ws ∈ getWorkspaces (.ok out) →
      ∃ l, l ∈ splitOnChar '\n' (jsTrim out.data) ∧
        (jsTrim l).isEmpty = false ∧
        ws.isCurrent = startsWithChar '*' l ∧
        (startsWithChar '*' l = true →
          ws.name = String.mk (jsTrim (l.drop 1))) ∧
        jsTrim ws.name.data = ws.name.data ∧
        (ws.state = .active ↔ ws.isCurrent = true)) := by
  refine ⟨rfl, ?_, ?_⟩
  · exact List.length_map _ _
  · intro hmem
    unfold getWorkspaces at hmem
    obtain ⟨l, hl, hws⟩ := List.mem_map.mp hmem
    have hfil := List.mem_filter.mp hl
    refine ⟨l, hfil.1, ?_, ?_, ?_, ?_, ?_⟩
    · simpa using hfil.2
    · rw [← hws]
      rfl
    · intro hstar
      rw [← hws]
      cases l with
      | nil => simp [startsWithChar] at hstar
      | cons c rest =>
        have hc : c = '*' := by simpa [startsWithChar] using hstar
        subst hc
        show String.mk (jsTrim (removeFirstChar '*' ('*' :: rest))) =
          String.mk (jsTrim (('*' :: rest).drop 1))
        simp [removeFirstChar]
    · rw [← hws]
      show jsTrim (jsTrim (removeFirstChar '*' l)) =
        jsTrim (removeFirstChar '*' l)
      exact jsTrim_idem _
    · rw [← hws]
      show (if startsWithChar '*' l then WorkspaceState.active else .inactive) =
          .active ↔ startsWithChar '*' l = true
      cases startsWithChar '*' l <;> simp

theorem getWorkspaces_spec_witness :
    ∃ l, l ∈ splitOnChar '\n' (jsTrim ("* dev\nprod" : String).data) ∧
      (jsTrim l).isEmpty = false ∧
      (⟨"dev", true, .active⟩ : Workspace).isCurrent = startsWithChar '*' l ∧
      (startsWithChar '*' l = true →
        (⟨"dev", true, .active⟩ : Workspace).name =
          String.mk (jsTrim (l.drop 1))) ∧
      jsTrim (⟨"dev", true, .active⟩ : Workspace).name.data =
        (⟨"dev", true, .active⟩ : Workspace).name.data ∧
      ((⟨"dev", true, .active⟩ : Workspace).state = .active ↔
        (⟨"dev", true, .active⟩ : Workspace).isCurrent = true) :=
  (getWorkspaces_spec () "* dev\nprod" ⟨"dev", true, .active⟩).2.2 (by decide)

end Tdash
